import Mathlib

/-!
Verification of the incremental BigQuery → PostgreSQL events ETL.

Shallow embedding of the core pipeline of `flask_server.py` (checkpoint
store, incremental extraction query, event-parameter normalization,
conflict-discard load, orchestrator `run_etl`, `/trigger` endpoint) and of
the per-batch commit loop of `BigQueryExtractor.load_to_postgres` in
`extract_bq.py`.  External effects (warehouse contents, exceptions raised
by the database clients, the checkpoint file) are passed in explicitly.
-/

namespace ETL

/-- One entry of a raw event's `event_params` list.  The source reads
`param.get('key')` and `param.get('value', {}).get('string_value')`; a
missing `string_value` is `None`, embedded as `none`. -/
structure AttrEntry where
  key : String
  string_value : Option String
deriving DecidableEq, Repr

/-- One warehouse row as selected by the incremental query in `run_etl`:
`SELECT user_id, event_name, event_timestamp, event_params, event_date`.
`user_id` is nullable in the warehouse; `event_timestamp` is an integer
microsecond timestamp. -/
structure RawEvent where
  user_id : Option String
  event_name : String
  event_timestamp : Nat
  event_params : List AttrEntry
  event_date : String
deriving DecidableEq, Repr

/-- The allow-listed event names (`EVENTS` in `flask_server.py`). -/
def EVENTS : List String :=
  ["select_menu_category", "open_item_details", "select_commerce_category",
   "select_vendor", "add_item_to_favorites", "view_item"]

/-- `user_id IS NOT NULL AND user_id != ''` from the query's WHERE clause. -/
def validUser : Option String → Bool
  | none => false
  | some s => s != ""

/-- The WHERE clause of the incremental query in `run_etl`:
non-null non-empty user, allow-listed event name, and
`event_timestamp > last_timestamp` (strict). -/
def wherePred (last_timestamp : Nat) (r : RawEvent) : Bool :=
  validUser r.user_id && EVENTS.contains r.event_name &&
    decide (last_timestamp < r.event_timestamp)

/-- `ORDER BY event_timestamp ASC`: the ordering relation on rows. -/
def tsLe (a b : RawEvent) : Prop :=
  a.event_timestamp ≤ b.event_timestamp

instance : DecidableRel tsLe :=
  fun a b => inferInstanceAs (Decidable (a.event_timestamp ≤ b.event_timestamp))

instance : IsTotal RawEvent tsLe :=
  ⟨fun a b => Nat.le_total a.event_timestamp b.event_timestamp⟩

instance : IsTrans RawEvent tsLe :=
  ⟨fun _ _ _ hab hbc => Nat.le_trans hab hbc⟩

/-- The incremental extraction (`run_etl` lines 146-156): the warehouse rows
satisfying the WHERE clause, returned in ascending `event_timestamp` order.
The SQL engine's sort is embedded as a sort of the filtered table. -/
def runQuery (table : List RawEvent) (last_timestamp : Nat) : List RawEvent :=
  List.insertionSort tsLe (table.filter (wherePred last_timestamp))

/-- The `event_params` scan in `run_etl` (lines 163-172, identical in
`extract_bq.py`): both fields start as `None` and EVERY entry whose key
matches overwrites the field (the loop has no break).  Returns
`(event_id, event_name_detail)`. -/
def paramScan (params : List AttrEntry) : Option String × Option String :=
  params.foldl
    (fun acc p =>
      (if p.key == "id" then p.string_value else acc.1,
       if p.key == "name" then p.string_value else acc.2))
    (none, none)

/-- The flat row appended to `all_data` and inserted into PostgreSQL. -/
structure NormalizedRow where
  user_id : Option String
  event_date : String
  event_timestamp : Nat
  event_name : String
  event_id : Option String
  event_name_detail : Option String
deriving DecidableEq, Repr

/-- Projection of one raw event to the tuple appended to `all_data`
(`run_etl` lines 163-181). -/
def normalizeEvent (r : RawEvent) : NormalizedRow :=
  ⟨r.user_id, r.event_date, r.event_timestamp, r.event_name,
   (paramScan r.event_params).1, (paramScan r.event_params).2⟩

/-- Modelled from the spec's words for comparison: the value of the FIRST
attribute entry whose key equals `k`. -/
def firstKeyValue (params : List AttrEntry) (k : String) : Option String :=
  match params.find? (fun p => p.key == k) with
  | some p => p.string_value
  | none => none

/-- The value of the LAST attribute entry whose key equals `k` (what the
source's overwrite-without-break loop computes). -/
def lastKeyValue (params : List AttrEntry) (k : String) : Option String :=
  firstKeyValue params.reverse k

-- A raw event whose attribute list has two entries with key "id" and two
-- with key "name", exercising the duplicate-key rule.
def dupKeyParams : List AttrEntry :=
  [⟨"id", some "A"⟩, ⟨"name", some "P"⟩, ⟨"id", some "B"⟩, ⟨"name", some "Q"⟩]

def dupKeyEvent : RawEvent :=
  ⟨some "u1", "view_item", 100, dupKeyParams, "20260101"⟩

theorem lastKeyValue_append (ps : List AttrEntry) (p : AttrEntry) (k : String) :
    lastKeyValue (ps ++ [p]) k =
      if p.key == k then p.string_value else lastKeyValue ps k := by
  simp only [lastKeyValue, firstKeyValue, List.reverse_append,
    List.reverse_cons, List.reverse_nil, List.nil_append, List.cons_append,
    List.find?]
  cases h : p.key == k <;> simp [h]

theorem paramScan_append (ps : List AttrEntry) (p : AttrEntry) :
    paramScan (ps ++ [p]) =
      (if p.key == "id" then p.string_value else (paramScan ps).1,
       if p.key == "name" then p.string_value else (paramScan ps).2) := by
  simp [paramScan, List.foldl_append]

theorem paramScan_eq_lastKeyValue (params : List AttrEntry) :
    paramScan params = (lastKeyValue params "id", lastKeyValue params "name") := by
  induction params using List.reverseRecOn with
  | nil => rfl
  | append_singleton ps p ih =>
      rw [paramScan_append, lastKeyValue_append, lastKeyValue_append, ih]

/-- C4 counterexample: on an attribute list with two "id" entries (values
"A" then "B") and two "name" entries (values "P" then "Q"), normalization
assigns the LAST values "B"/"Q", not the first values "A"/"P" required by
the claim. -/
theorem C4_first_occurrence_counterexample :
    (normalizeEvent dupKeyEvent).event_id = some "B" ∧
    (normalizeEvent dupKeyEvent).event_name_detail = some "Q" ∧
    firstKeyValue dupKeyEvent.event_params "id" = some "A" ∧
    firstKeyValue dupKeyEvent.event_params "name" = some "P" ∧
    (normalizeEvent dupKeyEvent).event_id ≠
      firstKeyValue dupKeyEvent.event_params "id" ∧
    (normalizeEvent dupKeyEvent).event_name_detail ≠
      firstKeyValue dupKeyEvent.event_params "name" := by
  decide

/-- C4 amended: on duplicate keys the LAST occurrence wins — for every raw
event, `secondary_id` (`event_id`) is the string value of the last attribute
entry with key "id" and `label` (`event_name_detail`) that of the last entry
with key "name"; the assignment is deterministic. -/
theorem C4_last_occurrence_wins (r : RawEvent) :
    (normalizeEvent r).event_id = lastKeyValue r.event_params "id" ∧
    (normalizeEvent r).event_name_detail = lastKeyValue r.event_params "name" := by
  have h := paramScan_eq_lastKeyValue r.event_params
  constructor
  · show (paramScan r.event_params).1 = _
    rw [h]
  · show (paramScan r.event_params).2 = _
    rw [h]

theorem mem_runQuery (table : List RawEvent) (w : Nat) (r : RawEvent) :
    r ∈ runQuery table w ↔ r ∈ table ∧ wherePred w r = true := by
  simp [runQuery, List.mem_insertionSort, List.mem_filter]

theorem wherePred_iff (w : Nat) (r : RawEvent) :
    wherePred w r = true ↔
      validUser r.user_id = true ∧ r.event_name ∈ EVENTS ∧ w < r.event_timestamp := by
  simp [wherePred, List.elem_iff, and_assoc]

/-- C5: the incremental extraction returns exactly the warehouse rows with
`event_timestamp` strictly above the watermark (so the boundary row with
timestamp equal to the watermark is never re-fetched), excludes every row
with a null or empty user identifier, is restricted to the allow-listed
event names, and is ordered ascending by event timestamp (as a multiset it
is exactly the filtered table). -/
theorem C5_extraction_exact (table : List RawEvent) (w : Nat) :
    (∀ r, r ∈ runQuery table w ↔
        r ∈ table ∧ w < r.event_timestamp ∧ validUser r.user_id = true ∧
          r.event_name ∈ EVENTS) ∧
    (runQuery table w).Sorted tsLe ∧
    (runQuery table w).Perm (table.filter (wherePred w)) ∧
    (∀ r ∈ runQuery table w, r.event_timestamp ≠ w) := by
  refine ⟨?_, ?_, ?_, ?_⟩
  · intro r
    rw [mem_runQuery, wherePred_iff]
    tauto
  · exact List.sorted_insertionSort tsLe _
  · exact List.perm_insertionSort tsLe _
  · intro r hr
    have h := ((mem_runQuery table w r).mp hr).2
    have := (wherePred_iff w r).mp h
    omega

/-- Witness for C5 at a concrete table: a valid row with timestamp 10 above
watermark 3 is extracted, and a boundary row with timestamp exactly 3 is
not. -/
theorem C5_extraction_exact_witness :
    (⟨some "u1", "view_item", 10, [], "d"⟩ : RawEvent) ∈
      runQuery [⟨some "u1", "view_item", 10, [], "d"⟩,
                ⟨some "u1", "view_item", 3, [], "d"⟩] 3 := by
  refine ((C5_extraction_exact
    [⟨some "u1", "view_item", 10, [], "d"⟩,
     ⟨some "u1", "view_item", 3, [], "d"⟩] 3).1
    ⟨some "u1", "view_item", 10, [], "d"⟩).mpr ?_
  refine ⟨by decide, by decide, by decide, by decide⟩

/-- The natural uniqueness key of the destination table:
`UNIQUE(user_id, event_timestamp, event_name)`. -/
def natKey (r : NormalizedRow) : Option String × Nat × String :=
  (r.user_id, r.event_timestamp, r.event_name)

/-- Whether the destination already holds a row with this row's natural key. -/
def hasKey (db : List NormalizedRow) (r : NormalizedRow) : Bool :=
  db.any (fun x => natKey x == natKey r)

/-- One `INSERT ... ON CONFLICT (user_id, event_timestamp, event_name)
DO NOTHING`: a colliding natural key is discarded, otherwise the row is
appended. -/
def insertRow (db : List NormalizedRow) (r : NormalizedRow) : List NormalizedRow :=
  if hasKey db r then db else db ++ [r]

/-- Bulk insert of a row sequence (`execute_batch` with the conflict-discard
statement), left to right. -/
def insertRows (db : List NormalizedRow) (rows : List NormalizedRow) : List NormalizedRow :=
  rows.foldl insertRow db

/-- The `max_timestamp` tracking loop of `run_etl` (lines 161, 183-185):
starts at `last_timestamp` and takes the maximum over the extracted rows. -/
def maxTimestamp (last_timestamp : Nat) (rows : List RawEvent) : Nat :=
  rows.foldl (fun m r => max m r.event_timestamp) last_timestamp

/-- `read_last_timestamp` (flask_server.py lines 52-68): the checkpoint file
value when present and readable, else the lookback fallback
(`now - ETL_LOOKBACK_HOURS`, computed from the caller's clock and passed
here as `fallback`).  An unreadable file behaves like an absent one. -/
def read_last_timestamp (file : Option Nat) (fallback : Nat) : Nat :=
  file.getD fallback

/-- The `last_result` record of a run.  The source's success dict has no
`error` key and the failure dict has no count keys; absent keys are
embedded as `none` / `0`. -/
structure RunResult where
  status : String
  last_processed_timestamp : Option Nat
  records_fetched : Nat
  records_inserted : Nat
  error : Option String
deriving DecidableEq, Repr

/-- Outcome of the checkpoint write `write_last_timestamp` (flask_server.py
lines 71-79).  The source opens the file with mode w — truncating it in
place — and then writes `str(timestamp)`, re-raising any exception.  A
raise can happen at the open, before the file is touched, or after the
truncating open, leaving the file empty; an empty file fails
`int(f.read().strip())` on the next read and is treated as absent.  The
three constructors correspond to the three stop points of
`write_last_timestamp_states` below (old contents / empty / new value). -/
inductive WriteOutcome where
  | ok : WriteOutcome
  | failAtOpen : String → WriteOutcome
  | failAfterTruncate : String → WriteOutcome
deriving DecidableEq, Repr

/-- Whether the write outcome leaves the checkpoint file torn: truncated
empty and hence unreadable by the next run. -/
def leavesTorn : WriteOutcome → Bool
  | .failAfterTruncate _ => true
  | _ => false

/-- The text of the exception a failed write re-raises, if any. -/
def writeErrText : WriteOutcome → Option String
  | .ok => none
  | .failAtOpen e => some e
  | .failAfterTruncate e => some e

/-- External inputs of one `run_etl` execution.  `loadErr = some msg` means
an exception with text `msg` was raised anywhere between reading the
checkpoint and the data commit (connectivity, query, insert, commit), so
nothing was committed; `write` is the outcome of `write_last_timestamp`
when the run attempts the checkpoint write after a successful data
commit. -/
structure RunEnv where
  table : List RawEvent
  fallback : Nat
  loadErr : Option String
  write : WriteOutcome

/-- Observable outcome of one `run_etl` execution: the checkpoint file, the
destination table and the recorded `last_result`. -/
structure RunOutcome where
  checkpoint : Option Nat
  db : List NormalizedRow
  result : RunResult
deriving DecidableEq, Repr

/-- `etl_status['last_result'] = {'status': 'failed', 'error': str(e)}`. -/
def failedResult (e : String) : RunResult :=
  ⟨"failed", none, 0, 0, some e⟩

/-- The body of `run_etl` (flask_server.py lines 93-229), entered with the
single-flight guard already passed (the guard itself is modelled separately
for the coordinator claims).  Reads the checkpoint, extracts strictly newer
rows, normalizes them, inserts with conflict discard, commits, and only
then — and only when the observed maximum strictly exceeds the old
watermark — writes the new checkpoint.  A write that raises at the open
leaves the stored checkpoint unchanged, while a write that raises after
the truncating open leaves the file empty — read as absent (`none`) by the
next run, which then falls back.  Every exception is caught and recorded
as a failed `last_result`; `records_inserted` embeds `cursor.rowcount` as
the destination's actual growth. -/
def run_etl (env : RunEnv) (cp : Option Nat) (db : List NormalizedRow) : RunOutcome :=
  let last_timestamp := read_last_timestamp cp env.fallback
  match env.loadErr with
  | some e => ⟨cp, db, failedResult e⟩
  | none =>
    let rows := runQuery env.table last_timestamp
    let all_data := rows.map normalizeEvent
    let max_timestamp := maxTimestamp last_timestamp rows
    let db2 := insertRows db all_data
    if last_timestamp < max_timestamp then
      match env.write with
      | .failAtOpen e => ⟨cp, db2, failedResult e⟩
      | .failAfterTruncate e => ⟨none, db2, failedResult e⟩
      | .ok =>
          ⟨some max_timestamp, db2,
           ⟨"success", some max_timestamp, rows.length, db2.length - db.length, none⟩⟩
    else
      ⟨cp, db2,
       ⟨"success", some max_timestamp, rows.length, db2.length - db.length, none⟩⟩

theorem init_le_maxTimestamp (w : Nat) (rows : List RawEvent) :
    w ≤ maxTimestamp w rows := by
  induction rows generalizing w with
  | nil => exact Nat.le_refl w
  | cons r rest ih =>
      exact Nat.le_trans (Nat.le_max_left w r.event_timestamp) (ih _)

theorem mem_le_maxTimestamp (w : Nat) (rows : List RawEvent) (r : RawEvent) :
    r ∈ rows → r.event_timestamp ≤ maxTimestamp w rows := by
  induction rows generalizing w with
  | nil => intro h; cases h
  | cons a rest ih =>
      intro h
      rcases List.mem_cons.mp h with h1 | h2
      · subst h1
        exact Nat.le_trans (Nat.le_max_right w r.event_timestamp)
          (init_le_maxTimestamp _ rest)
      · exact ih _ h2

theorem run_etl_loadErr_eq (env : RunEnv) (cp : Option Nat) (db : List NormalizedRow)
    (e : String) (h : env.loadErr = some e) :
    run_etl env cp db = ⟨cp, db, failedResult e⟩ := by
  unfold run_etl
  rw [h]

theorem run_etl_write_eq (env : RunEnv) (cp : Option Nat) (db : List NormalizedRow)
    (h : env.loadErr = none) (hw : env.write = .ok)
    (hlt : read_last_timestamp cp env.fallback <
      maxTimestamp (read_last_timestamp cp env.fallback)
        (runQuery env.table (read_last_timestamp cp env.fallback))) :
    run_etl env cp db =
      ⟨some (maxTimestamp (read_last_timestamp cp env.fallback)
          (runQuery env.table (read_last_timestamp cp env.fallback))),
       insertRows db ((runQuery env.table (read_last_timestamp cp env.fallback)).map
          normalizeEvent),
       ⟨"success",
        some (maxTimestamp (read_last_timestamp cp env.fallback)
          (runQuery env.table (read_last_timestamp cp env.fallback))),
        (runQuery env.table (read_last_timestamp cp env.fallback)).length,
        (insertRows db ((runQuery env.table (read_last_timestamp cp env.fallback)).map
          normalizeEvent)).length - db.length,
        none⟩⟩ := by
  simp only [run_etl, h, hw]
  rw [if_pos hlt]

theorem run_etl_failAtOpen_eq (env : RunEnv) (cp : Option Nat) (db : List NormalizedRow)
    (e : String) (h : env.loadErr = none) (hw : env.write = .failAtOpen e)
    (hlt : read_last_timestamp cp env.fallback <
      maxTimestamp (read_last_timestamp cp env.fallback)
        (runQuery env.table (read_last_timestamp cp env.fallback))) :
    run_etl env cp db =
      ⟨cp,
       insertRows db ((runQuery env.table (read_last_timestamp cp env.fallback)).map
          normalizeEvent),
       failedResult e⟩ := by
  simp only [run_etl, h, hw]
  rw [if_pos hlt]

theorem run_etl_failAfterTruncate_eq (env : RunEnv) (cp : Option Nat)
    (db : List NormalizedRow) (e : String)
    (h : env.loadErr = none) (hw : env.write = .failAfterTruncate e)
    (hlt : read_last_timestamp cp env.fallback <
      maxTimestamp (read_last_timestamp cp env.fallback)
        (runQuery env.table (read_last_timestamp cp env.fallback))) :
    run_etl env cp db =
      ⟨none,
       insertRows db ((runQuery env.table (read_last_timestamp cp env.fallback)).map
          normalizeEvent),
       failedResult e⟩ := by
  simp only [run_etl, h, hw]
  rw [if_pos hlt]

theorem run_etl_nonew_eq (env : RunEnv) (cp : Option Nat) (db : List NormalizedRow)
    (h : env.loadErr = none)
    (hge : ¬ read_last_timestamp cp env.fallback <
      maxTimestamp (read_last_timestamp cp env.fallback)
        (runQuery env.table (read_last_timestamp cp env.fallback))) :
    run_etl env cp db =
      ⟨cp,
       insertRows db ((runQuery env.table (read_last_timestamp cp env.fallback)).map
          normalizeEvent),
       ⟨"success",
        some (maxTimestamp (read_last_timestamp cp env.fallback)
          (runQuery env.table (read_last_timestamp cp env.fallback))),
        (runQuery env.table (read_last_timestamp cp env.fallback)).length,
        (insertRows db ((runQuery env.table (read_last_timestamp cp env.fallback)).map
          normalizeEvent)).length - db.length,
        none⟩⟩ := by
  simp only [run_etl, h]
  rw [if_neg hge]

def eventAt (ts : Nat) : RawEvent :=
  ⟨some "u1", "view_item", ts, [], "20260101"⟩

/-- C1 counterexample: with stored checkpoint 1000, lookback fallback 50
and one new event at timestamp 2000, a checkpoint write that raises after
its truncating open (the torn state of `write_last_timestamp_states`)
erases the stored value: the checkpoint after the run is absent and the
watermark the next run reads is the fallback 50, strictly below the 1000
read before the run — the checkpoint value after the run is not ≥ the
value before it. -/
theorem C1_watermark_regression_counterexample :
    (run_etl ⟨[eventAt 2000], 50, none, .failAfterTruncate "disk full"⟩
        (some 1000) []).checkpoint = none ∧
    read_last_timestamp
      (run_etl ⟨[eventAt 2000], 50, none, .failAfterTruncate "disk full"⟩
        (some 1000) []).checkpoint 50 = 50 ∧
    read_last_timestamp (some 1000) 50 = 1000 ∧
    (50 : Nat) < 1000 := by
  decide

/-- C1 amended: for every run whose checkpoint write does not raise after
its truncating open, the checkpoint value after the run is ≥ the value
before it; the checkpoint is mutated only after a successful load commit
and only when the observed maximum strictly exceeds the watermark read at
the start — either to the observed maximum (write succeeded, run recorded
success) or, when the write raised after the truncating open, to the
absent torn state; when no new rows are observed, no checkpoint write
occurs. -/
theorem C1_watermark_monotone_unless_torn_write (env : RunEnv) (cp : Option Nat)
    (db : List NormalizedRow) :
    (∀ v, cp = some v → leavesTorn env.write = false →
      ∃ w, (run_etl env cp db).checkpoint = some w ∧ v ≤ w) ∧
    ((run_etl env cp db).checkpoint ≠ cp →
      env.loadErr = none ∧
      read_last_timestamp cp env.fallback <
        maxTimestamp (read_last_timestamp cp env.fallback)
          (runQuery env.table (read_last_timestamp cp env.fallback)) ∧
      ((env.write = .ok ∧
        (run_etl env cp db).result.status = "success" ∧
        (run_etl env cp db).checkpoint =
          some (maxTimestamp (read_last_timestamp cp env.fallback)
            (runQuery env.table (read_last_timestamp cp env.fallback)))) ∨
       (leavesTorn env.write = true ∧
        (run_etl env cp db).result.status = "failed" ∧
        (run_etl env cp db).checkpoint = none))) ∧
    (runQuery env.table (read_last_timestamp cp env.fallback) = [] →
      (run_etl env cp db).checkpoint = cp) := by
  rcases hl : env.loadErr with _ | e
  · by_cases hlt : read_last_timestamp cp env.fallback <
      maxTimestamp (read_last_timestamp cp env.fallback)
        (runQuery env.table (read_last_timestamp cp env.fallback))
    · rcases hw : env.write with _ | e | e
      · rw [run_etl_write_eq env cp db hl hw hlt]
        refine ⟨?_, ?_, ?_⟩
        · intro v hv _
          refine ⟨_, rfl, ?_⟩
          have hr : read_last_timestamp cp env.fallback = v := by
            simp [read_last_timestamp, hv]
          calc v = read_last_timestamp cp env.fallback := hr.symm
            _ ≤ _ := init_le_maxTimestamp _ _
        · intro _
          exact ⟨rfl, hlt, Or.inl ⟨rfl, rfl, rfl⟩⟩
        · intro hnil
          rw [hnil] at hlt
          exact absurd hlt (lt_irrefl _)
      · rw [run_etl_failAtOpen_eq env cp db e hl hw hlt]
        exact ⟨fun v hv _ => ⟨v, hv, le_refl v⟩,
               fun hne => absurd rfl hne, fun _ => rfl⟩
      · rw [run_etl_failAfterTruncate_eq env cp db e hl hw hlt]
        refine ⟨?_, ?_, ?_⟩
        · intro v hv htorn
          simp [leavesTorn] at htorn
        · intro _
          exact ⟨rfl, hlt, Or.inr ⟨rfl, rfl, rfl⟩⟩
        · intro hnil
          rw [hnil] at hlt
          exact absurd hlt (lt_irrefl _)
    · rw [run_etl_nonew_eq env cp db hl hlt]
      exact ⟨fun v hv _ => ⟨v, hv, le_refl v⟩,
             fun hne => absurd rfl hne, fun _ => rfl⟩
  · rw [run_etl_loadErr_eq env cp db e hl]
    exact ⟨fun v hv _ => ⟨v, hv, le_refl v⟩,
           fun hne => absurd rfl hne, fun _ => rfl⟩

/-- Witness for C1 amended at a concrete run: prior checkpoint 5, one new
row at timestamp 9, write succeeding; the checkpoint after the run is some
value ≥ 5. -/
theorem C1_watermark_monotone_unless_torn_write_witness :
    ∃ w, (run_etl ⟨[eventAt 9], 0, none, .ok⟩ (some 5) []).checkpoint = some w ∧
      5 ≤ w :=
  (C1_watermark_monotone_unless_torn_write ⟨[eventAt 9], 0, none, .ok⟩
    (some 5) []).1 5 rfl rfl

/-- C2: if the load stage raises, the run writes no checkpoint — the stored
watermark and the destination are unchanged, the recorded result is the
failure record, and the watermark the next run would read equals the one
read at the start of this run (the same window is re-extracted). -/
theorem C2_load_failure_no_checkpoint (env : RunEnv) (cp : Option Nat)
    (db : List NormalizedRow) (e : String) (h : env.loadErr = some e) :
    (run_etl env cp db).checkpoint = cp ∧
    (run_etl env cp db).db = db ∧
    (run_etl env cp db).result = failedResult e ∧
    (run_etl env cp db).result.status = "failed" ∧
    read_last_timestamp (run_etl env cp db).checkpoint env.fallback =
      read_last_timestamp cp env.fallback := by
  rw [run_etl_loadErr_eq env cp db e h]
  exact ⟨rfl, rfl, rfl, rfl, rfl⟩

/-- Witness for C2 at a concrete run whose load raises. -/
theorem C2_load_failure_no_checkpoint_witness :
    (run_etl ⟨[eventAt 9], 0, some "connection refused", .ok⟩ (some 5)
        []).checkpoint = some 5 ∧
    (run_etl ⟨[eventAt 9], 0, some "connection refused", .ok⟩ (some 5)
        []).result.status = "failed" := by
  have h := C2_load_failure_no_checkpoint
    ⟨[eventAt 9], 0, some "connection refused", .ok⟩ (some 5) []
    "connection refused" rfl
  exact ⟨h.1, h.2.2.2.1⟩

/-- After a run advances the watermark to the observed maximum, extracting
above that maximum from the same warehouse yields nothing: every row that
would pass the new predicate already passed the old one and is therefore
bounded by the maximum. -/
theorem runQuery_after_max_nil (table : List RawEvent) (w0 : Nat) :
    runQuery table (maxTimestamp w0 (runQuery table w0)) = [] := by
  have hfilter :
      table.filter (wherePred (maxTimestamp w0 (runQuery table w0))) = [] := by
    rw [List.filter_eq_nil_iff]
    intro r hr hpred
    have h1 := (wherePred_iff _ r).mp hpred
    have hw0 : w0 ≤ maxTimestamp w0 (runQuery table w0) :=
      init_le_maxTimestamp w0 _
    have hpred0 : wherePred w0 r = true :=
      (wherePred_iff w0 r).mpr ⟨h1.1, h1.2.1, lt_of_le_of_lt hw0 h1.2.2⟩
    have hmem : r ∈ runQuery table w0 :=
      (mem_runQuery table w0 r).mpr ⟨hr, hpred0⟩
    have hle := mem_le_maxTimestamp w0 (runQuery table w0) r hmem
    omega
  rw [runQuery, hfilter]
  rfl

/-- If the extraction observed no strictly newer maximum, it observed no
rows at all. -/
theorem runQuery_nil_of_not_lt (table : List RawEvent) (w0 : Nat)
    (hge : ¬ w0 < maxTimestamp w0 (runQuery table w0)) :
    runQuery table w0 = [] := by
  cases h : runQuery table w0 with
  | nil => rfl
  | cons r rest =>
      exfalso
      have hmem : r ∈ runQuery table w0 := by
        rw [h]; exact List.mem_cons_self r rest
      have h1 := (wherePred_iff w0 r).mp ((mem_runQuery table w0 r).mp hmem).2
      have hle := mem_le_maxTimestamp w0 (runQuery table w0) r hmem
      omega

/-- C3: idempotent replay — with no new upstream data between two
fault-free runs, the second run leaves the destination exactly as the first
run left it (zero additional rows inserted: it fetches nothing and reports
zero rows inserted), the watermark after the second run equals the
watermark after the first, and the second run succeeds. -/
theorem C3_idempotent_replay (table : List RawEvent) (fallback : Nat)
    (cp : Option Nat) (db : List NormalizedRow) :
    (run_etl ⟨table, fallback, none, .ok⟩
        (run_etl ⟨table, fallback, none, .ok⟩ cp db).checkpoint
        (run_etl ⟨table, fallback, none, .ok⟩ cp db).db).db =
      (run_etl ⟨table, fallback, none, .ok⟩ cp db).db ∧
    (run_etl ⟨table, fallback, none, .ok⟩
        (run_etl ⟨table, fallback, none, .ok⟩ cp db).checkpoint
        (run_etl ⟨table, fallback, none, .ok⟩ cp db).db).checkpoint =
      (run_etl ⟨table, fallback, none, .ok⟩ cp db).checkpoint ∧
    (run_etl ⟨table, fallback, none, .ok⟩
        (run_etl ⟨table, fallback, none, .ok⟩ cp db).checkpoint
        (run_etl ⟨table, fallback, none, .ok⟩ cp db).db).result.records_fetched = 0 ∧
    (run_etl ⟨table, fallback, none, .ok⟩
        (run_etl ⟨table, fallback, none, .ok⟩ cp db).checkpoint
        (run_etl ⟨table, fallback, none, .ok⟩ cp db).db).result.records_inserted = 0 ∧
    (run_etl ⟨table, fallback, none, .ok⟩
        (run_etl ⟨table, fallback, none, .ok⟩ cp db).checkpoint
        (run_etl ⟨table, fallback, none, .ok⟩ cp db).db).result.status = "success" := by
  by_cases hlt : read_last_timestamp cp fallback <
      maxTimestamp (read_last_timestamp cp fallback)
        (runQuery table (read_last_timestamp cp fallback))
  · rw [run_etl_write_eq ⟨table, fallback, none, .ok⟩ cp db rfl rfl hlt]
    have hq2 : runQuery table
        (read_last_timestamp
          (some (maxTimestamp (read_last_timestamp cp fallback)
            (runQuery table (read_last_timestamp cp fallback)))) fallback) = [] := by
      show runQuery table (maxTimestamp (read_last_timestamp cp fallback)
        (runQuery table (read_last_timestamp cp fallback))) = []
      exact runQuery_after_max_nil table (read_last_timestamp cp fallback)
    have hge2 : ¬ read_last_timestamp
        (some (maxTimestamp (read_last_timestamp cp fallback)
          (runQuery table (read_last_timestamp cp fallback)))) fallback <
        maxTimestamp (read_last_timestamp
          (some (maxTimestamp (read_last_timestamp cp fallback)
            (runQuery table (read_last_timestamp cp fallback)))) fallback)
        (runQuery table (read_last_timestamp
          (some (maxTimestamp (read_last_timestamp cp fallback)
            (runQuery table (read_last_timestamp cp fallback)))) fallback)) := by
      rw [hq2]
      exact lt_irrefl _
    rw [run_etl_nonew_eq _ _ _ rfl hge2]
    rw [hq2]
    exact ⟨rfl, rfl, rfl, Nat.sub_self _, rfl⟩
  · have hnil := runQuery_nil_of_not_lt table (read_last_timestamp cp fallback) hlt
    rw [run_etl_nonew_eq ⟨table, fallback, none, .ok⟩ cp db rfl hlt]
    simp only [hnil, List.map_nil]
    have hge2 : ¬ read_last_timestamp cp fallback <
        maxTimestamp (read_last_timestamp cp fallback)
          (runQuery table (read_last_timestamp cp fallback)) := hlt
    rw [run_etl_nonew_eq ⟨table, fallback, none, .ok⟩ cp (insertRows db []) rfl hge2]
    rw [hnil]
    exact ⟨rfl, rfl, rfl, Nat.sub_self _, rfl⟩

/-- C7: when the durable checkpoint write raises after a successful load
commit (a write was attempted because the observed maximum strictly
exceeds the old watermark) — whether it raises at the open, leaving the
old file, or after the truncating open, leaving it torn — the run is
recorded as a failure carrying the re-raised error text, never as a
success, while the committed data remains in the destination. -/
theorem C7_checkpoint_write_failure_fails_run (env : RunEnv) (cp : Option Nat)
    (db : List NormalizedRow) (e : String)
    (hl : env.loadErr = none) (hw : writeErrText env.write = some e)
    (hlt : read_last_timestamp cp env.fallback <
      maxTimestamp (read_last_timestamp cp env.fallback)
        (runQuery env.table (read_last_timestamp cp env.fallback))) :
    (run_etl env cp db).result.status = "failed" ∧
    (run_etl env cp db).result.status ≠ "success" ∧
    (run_etl env cp db).result.error = some e ∧
    (run_etl env cp db).db =
      insertRows db ((runQuery env.table (read_last_timestamp cp env.fallback)).map
        normalizeEvent) := by
  rcases hcase : env.write with _ | e2 | e2
  · rw [hcase] at hw
    simp [writeErrText] at hw
  · rw [hcase] at hw
    simp only [writeErrText, Option.some.injEq] at hw
    rw [hw] at hcase
    rw [run_etl_failAtOpen_eq env cp db e hl hcase hlt]
    refine ⟨rfl, ?_, rfl, rfl⟩
    show ("failed" : String) ≠ "success"
    decide
  · rw [hcase] at hw
    simp only [writeErrText, Option.some.injEq] at hw
    rw [hw] at hcase
    rw [run_etl_failAfterTruncate_eq env cp db e hl hcase hlt]
    refine ⟨rfl, ?_, rfl, rfl⟩
    show ("failed" : String) ≠ "success"
    decide

/-- Witness for C7: prior checkpoint 5, one new row at timestamp 9, and a
checkpoint write that raises after its truncating open; the run reports
failed. -/
theorem C7_checkpoint_write_failure_fails_run_witness :
    (run_etl ⟨[eventAt 9], 0, none, .failAfterTruncate "disk full"⟩ (some 5)
        []).result.status = "failed" := by
  have h := C7_checkpoint_write_failure_fails_run
    ⟨[eventAt 9], 0, none, .failAfterTruncate "disk full"⟩ (some 5) [] "disk full"
    rfl rfl (by decide)
  exact h.1

/-- Response of the `/trigger` endpoint: HTTP status code, the top-level
`status` field, the optional `message` field of the conflict answer, and
the embedded `result` payload. -/
structure TriggerResponse where
  http_status : Nat
  status : String
  message : Option String
  result : Option RunResult
deriving DecidableEq, Repr

/-- The `/trigger` endpoint (flask_server.py lines 268-274): answers 409
with top-level status `error` when a run is in flight; otherwise runs
`run_etl()` synchronously (whose exceptions are all caught internally and
recorded in `last_result`) and answers 200 with top-level status `success`
and the recorded `last_result` embedded. -/
def trigger (is_running : Bool) (env : RunEnv) (cp : Option Nat)
    (db : List NormalizedRow) : TriggerResponse :=
  if is_running then ⟨409, "error", some "ETL already running", none⟩
  else ⟨200, "success", none, some (run_etl env cp db).result⟩

/-- C10: whenever `/trigger` is called while no run is in progress, the
top-level answer is HTTP 200 with status `success` regardless of the run's
outcome; a failed run is visible only inside the embedded `result` payload,
whose status is `failed` with the error text. -/
theorem C10_trigger_success_masks_failure (env : RunEnv) (cp : Option Nat)
    (db : List NormalizedRow) :
    (trigger false env cp db).http_status = 200 ∧
    (trigger false env cp db).status = "success" ∧
    (trigger false env cp db).result = some (run_etl env cp db).result ∧
    (∀ e, env.loadErr = some e →
      (trigger false env cp db).result =
        some ⟨"failed", none, 0, 0, some e⟩) := by
  refine ⟨rfl, rfl, rfl, ?_⟩
  intro e he
  show some (run_etl env cp db).result = _
  rw [run_etl_loadErr_eq env cp db e he]
  rfl

/-- Witness for C10: a run whose load raises still produces a 200 `success`
trigger answer, with the failure only in the embedded payload. -/
theorem C10_trigger_success_masks_failure_witness :
    (trigger false ⟨[eventAt 9], 0, some "boom", .ok⟩ (some 5) []).status =
      "success" ∧
    (trigger false ⟨[eventAt 9], 0, some "boom", .ok⟩ (some 5) []).result =
      some ⟨"failed", none, 0, 0, some "boom"⟩ := by
  have h := C10_trigger_success_masks_failure
    ⟨[eventAt 9], 0, some "boom", .ok⟩ (some 5) []
  exact ⟨h.2.1, h.2.2.2 "boom" rfl⟩

/-- Batch grouping of `BigQueryExtractor.load_to_postgres` (extract_bq.py
lines 223-258): rows are accumulated and the accumulator is flushed as one
batch whenever `len(batch) >= batch_size`, the non-empty remainder flushed
after the loop.  Because the accumulator grows one row at a time, this
yields consecutive chunks of size `max batch_size 1` (a `batch_size` of 0
flushes after every single row, exactly like 1). -/
def chunksOf (batch_size : Nat) : List NormalizedRow → List (List NormalizedRow)
  | [] => []
  | r :: rest =>
      (r :: rest).take (max batch_size 1) ::
        chunksOf batch_size ((r :: rest).drop (max batch_size 1))
termination_by rows => rows.length
decreasing_by
  simp only [List.length_drop, List.length_cons]
  have h1 : 1 ≤ max batch_size 1 := Nat.le_max_right _ _
  omega

/-- The per-batch commit loop: each flushed batch is inserted with conflict
discard and committed at once before the next batch is built;
`failAt = some k` models the k-th batch's execute/commit raising, which
rolls back only that batch (`self.pg_conn.rollback()`) and aborts the
loop.  Returns the destination contents and whether the load completed. -/
def runBatches (db : List NormalizedRow) (batches : List (List NormalizedRow))
    (failAt : Option Nat) : List NormalizedRow × Bool :=
  match batches, failAt with
  | [], _ => (db, true)
  | _ :: _, some 0 => (db, false)
  | b :: rest, some (k + 1) => runBatches (insertRows db b) rest (some k)
  | b :: rest, none => runBatches (insertRows db b) rest none

/-- `load_to_postgres(data, batch_size)` against destination contents `db`:
group into batches, commit batch by batch. -/
def load_to_postgres (db : List NormalizedRow) (rows : List NormalizedRow)
    (batch_size : Nat) (failAt : Option Nat) : List NormalizedRow × Bool :=
  runBatches db (chunksOf batch_size rows) failAt

theorem chunksOf_flatten (bs : Nat) (rows : List NormalizedRow) :
    (chunksOf bs rows).flatten = rows := by
  generalize hn : rows.length = n
  induction n using Nat.strong_induction_on generalizing rows with
  | _ n ih =>
    cases rows with
    | nil => simp [chunksOf]
    | cons r rest =>
      rw [chunksOf]
      have hlen : ((r :: rest).drop (max bs 1)).length < n := by
        simp only [List.length_drop, List.length_cons]
        have h1 : 1 ≤ max bs 1 := Nat.le_max_right _ _
        simp only [List.length_cons] at hn
        omega
      rw [List.flatten_cons, ih _ hlen _ rfl, List.take_append_drop]

theorem chunksOf_sizes (bs : Nat) (rows : List NormalizedRow) :
    ∀ b ∈ chunksOf bs rows, b ≠ [] ∧ b.length ≤ max bs 1 := by
  generalize hn : rows.length = n
  induction n using Nat.strong_induction_on generalizing rows with
  | _ n ih =>
    cases rows with
    | nil => simp [chunksOf]
    | cons r rest =>
      rw [chunksOf]
      intro b hb
      rcases List.mem_cons.mp hb with h1 | h2
      · subst h1
        constructor
        · have hpos : 0 < ((r :: rest).take (max bs 1)).length := by
            simp only [List.length_take, List.length_cons]
            have h1 : 1 ≤ max bs 1 := Nat.le_max_right _ _
            omega
          exact List.ne_nil_of_length_pos hpos
        · simp only [List.length_take]
          exact Nat.min_le_left _ _
      · have hlen : ((r :: rest).drop (max bs 1)).length < n := by
          simp only [List.length_drop, List.length_cons]
          have h1 : 1 ≤ max bs 1 := Nat.le_max_right _ _
          simp only [List.length_cons] at hn
          omega
        exact ih _ hlen _ rfl b h2

theorem chunksOf_nil_iff (bs : Nat) (rows : List NormalizedRow) :
    chunksOf bs rows = [] ↔ rows = [] := by
  cases rows with
  | nil => simp [chunksOf]
  | cons r rest => rw [chunksOf]; simp

theorem chunksOf_dropLast (bs : Nat) (rows : List NormalizedRow) :
    ∀ b ∈ (chunksOf bs rows).dropLast, b.length = max bs 1 := by
  generalize hn : rows.length = n
  induction n using Nat.strong_induction_on generalizing rows with
  | _ n ih =>
    cases rows with
    | nil => simp [chunksOf]
    | cons r rest =>
      rw [chunksOf]
      cases hc : chunksOf bs ((r :: rest).drop (max bs 1)) with
      | nil => simp
      | cons c cs =>
        intro b hb
        rw [List.dropLast_cons₂] at hb
        rcases List.mem_cons.mp hb with h1 | h2
        · subst h1
          have hdrop : (r :: rest).drop (max bs 1) ≠ [] := by
            intro hcontra
            rw [hcontra] at hc
            simp [chunksOf] at hc
          have hge : max bs 1 ≤ (r :: rest).length := by
            by_contra hcontra
            push_neg at hcontra
            exact hdrop (List.drop_eq_nil_of_le (Nat.le_of_lt hcontra))
          simp only [List.length_take]
          exact Nat.min_eq_left hge
        · have hlen : ((r :: rest).drop (max bs 1)).length < n := by
            simp only [List.length_drop, List.length_cons]
            have h1 : 1 ≤ max bs 1 := Nat.le_max_right _ _
            simp only [List.length_cons] at hn
            omega
          exact ih _ hlen _ rfl b (by rw [hc]; exact h2)

theorem runBatches_none (db : List NormalizedRow)
    (batches : List (List NormalizedRow)) :
    runBatches db batches none = (batches.foldl insertRows db, true) := by
  induction batches generalizing db with
  | nil => rfl
  | cons b rest ih => rw [runBatches, List.foldl_cons, ih]

theorem runBatches_failAt (db : List NormalizedRow)
    (batches : List (List NormalizedRow)) (k : Nat) (hk : k < batches.length) :
    runBatches db batches (some k) = ((batches.take k).foldl insertRows db, false) := by
  induction batches generalizing db k with
  | nil => cases hk
  | cons b rest ih =>
      cases k with
      | zero => rfl
      | succ k =>
          rw [runBatches, List.take_succ_cons, List.foldl_cons]
          exact ih _ k (Nat.lt_of_succ_lt_succ hk)

/-- C6: the loader groups the normalized rows, in order, into batches of
`batch_size` (their concatenation is the row sequence, every batch except
possibly the last has exactly `batch_size` rows, none is empty or larger)
and commits each batch independently as soon as it is written: a run with
no failure commits every batch in order, and a run whose k-th batch commit
fails leaves exactly the first k batches durably committed — later batches
are not attempted and the failing batch rolls back. -/
theorem C6_batched_independent_commits (db rows : List NormalizedRow)
    (batch_size : Nat) (hbs : 0 < batch_size) :
    (chunksOf batch_size rows).flatten = rows ∧
    (∀ b ∈ chunksOf batch_size rows, b ≠ [] ∧ b.length ≤ batch_size) ∧
    (∀ b ∈ (chunksOf batch_size rows).dropLast, b.length = batch_size) ∧
    load_to_postgres db rows batch_size none =
      ((chunksOf batch_size rows).foldl insertRows db, true) ∧
    (∀ k, k < (chunksOf batch_size rows).length →
      load_to_postgres db rows batch_size (some k) =
        (((chunksOf batch_size rows).take k).foldl insertRows db, false)) := by
  have hmax : max batch_size 1 = batch_size := Nat.max_eq_left hbs
  refine ⟨chunksOf_flatten batch_size rows, ?_, ?_, ?_, ?_⟩
  · intro b hb
    have h := chunksOf_sizes batch_size rows b hb
    rw [hmax] at h
    exact h
  · intro b hb
    have h := chunksOf_dropLast batch_size rows b hb
    rw [hmax] at h
    exact h
  · exact runBatches_none db _
  · intro k hk
    exact runBatches_failAt db _ k hk

def nRow (u : String) (ts : Nat) : NormalizedRow :=
  ⟨some u, "20260101", ts, "view_item", none, none⟩

/-- Witness for C6 with three rows, batch size 2, failure at batch index 1:
the first batch (two rows) is committed, the second is not attempted. -/
theorem C6_batched_independent_commits_witness :
    load_to_postgres [] [nRow "a" 1, nRow "b" 2, nRow "c" 3] 2 (some 1) =
      ([nRow "a" 1, nRow "b" 2], false) := by
  have hch : chunksOf 2 [nRow "a" 1, nRow "b" 2, nRow "c" 3] =
      [[nRow "a" 1, nRow "b" 2], [nRow "c" 3]] := by
    simp [chunksOf]
  have h := (C6_batched_independent_commits []
    [nRow "a" 1, nRow "b" 2, nRow "c" 3] 2 (by decide)).2.2.2.2 1
    (by rw [hch]; decide)
  rw [h, hch]
  decide

/-- The checkpoint file contents visible at the successive stop points of
`write_last_timestamp` (flask_server.py lines 71-79).  The source opens the
file with mode w — truncating it in place — and then writes
`str(timestamp)`; there is no temporary file and no rename.  A crash can
stop the procedure before the open (old contents), between the truncating
open and the write (empty file), or after the write (new contents). -/
def write_last_timestamp_states (old : String) (timestamp : Nat) : List String :=
  [old, "", toString timestamp]

/-- The spec's atomicity requirement on a write procedure: every state a
crash can leave behind is the complete old value or the complete new
value. -/
def atomicStates (states : List String) (old newContents : String) : Prop :=
  ∀ s ∈ states, s = old ∨ s = newContents

/-- C8 counterexample: writing checkpoint 7 over stored checkpoint "5" is
not atomic — the state after the truncating open is the empty file, which
is neither the old nor the new value. -/
theorem C8_atomic_write_counterexample :
    ¬ atomicStates (write_last_timestamp_states "5" 7) "5" (toString 7) := by
  intro h
  rcases h "" (by decide) with h1 | h1 <;> exact absurd h1 (by decide)

/-- C8 amended: the checkpoint is written by truncating the file in place
and then writing the new value (no temp-and-rename); a crash during the
write leaves the complete old value, the complete new value, or a torn
state — the empty file left between the truncating open and the write. -/
theorem C8_truncate_then_write (old : String) (timestamp : Nat) :
    ∀ s ∈ write_last_timestamp_states old timestamp,
      s = old ∨ s = "" ∨ s = toString timestamp := by
  intro s hs
  rcases List.mem_cons.mp hs with h1 | hs2
  · exact Or.inl h1
  rcases List.mem_cons.mp hs2 with h2 | hs3
  · exact Or.inr (Or.inl h2)
  rcases List.mem_cons.mp hs3 with h3 | hs4
  · exact Or.inr (Or.inr h3)
  · cases hs4

/-- Witness for C8 amended at the torn state itself. -/
theorem C8_truncate_then_write_witness :
    "" = "5" ∨ "" = "" ∨ "" = toString 7 :=
  C8_truncate_then_write "5" 7 "" (by decide)

/-- Program position of one caller of `run_etl` around the `is_running`
guard (flask_server.py lines 86-90): the check
`if etl_status['is_running']` (line 86) and the assignment
`etl_status['is_running'] = True` (line 90) are separate steps with no
lock between them.  `finished b` records whether the caller proceeded to
the ETL body (`b = true`) or returned after seeing the flag set. -/
inductive GuardPc where
  | start : GuardPc
  | passedCheck : GuardPc
  | finished : Bool → GuardPc
deriving DecidableEq, Repr

/-- Shared state of two simultaneous callers (the scheduler and the
on-demand trigger) racing on the one global flag. -/
structure GuardSys where
  is_running : Bool
  pcA : GuardPc
  pcB : GuardPc
deriving DecidableEq, Repr

/-- One step of one caller: the check reads the flag and either bails out
or passes; the set then writes the flag and enters the body. -/
def guardStep (running : Bool) : GuardPc → Bool × GuardPc
  | .start => if running then (running, .finished false) else (running, .passedCheck)
  | .passedCheck => (true, .finished true)
  | .finished b => (running, .finished b)

/-- Run the two callers under an explicit interleaving: `true` schedules a
step of caller A, `false` a step of caller B. -/
def runSchedule (s : GuardSys) : List Bool → GuardSys
  | [] => s
  | t :: rest =>
      if t then
        runSchedule ⟨(guardStep s.is_running s.pcA).1,
                     (guardStep s.is_running s.pcA).2, s.pcB⟩ rest
      else
        runSchedule ⟨(guardStep s.is_running s.pcB).1,
                     s.pcA, (guardStep s.is_running s.pcB).2⟩ rest

/-- Initial state: no run in flight, both callers about to check. -/
def initGuard : GuardSys := ⟨false, .start, .start⟩

/-- Whether a caller proceeded past the guard into the ETL body. -/
def proceeded : GuardPc → Bool
  | .finished true => true
  | _ => false

/-- C9 counterexample: under the interleaving in which both callers perform
their check before either performs its set (schedule A-check, B-check,
A-set, B-set), BOTH callers proceed past the guard into the ETL body — the
bare read-then-write flag does not give the single-flight guarantee. -/
theorem C9_single_flight_counterexample :
    proceeded (runSchedule initGuard [true, false, true, false]).pcA = true ∧
    proceeded (runSchedule initGuard [true, false, true, false]).pcB = true := by
  decide

/-- C9 amended: the `is_running` check and set are two separate
unsynchronized steps, so the single-flight guarantee holds only when the
two invocations' check-and-set sections do not interleave: under either
serialized schedule exactly one caller proceeds to the ETL body and the
other returns immediately, while an interleaved schedule exists (both
check first) under which both proceed. -/
theorem C9_serialized_single_flight (t : Bool) :
    (proceeded (runSchedule initGuard [t, t, !t, !t]).pcA &&
      proceeded (runSchedule initGuard [t, t, !t, !t]).pcB) = false ∧
    (proceeded (runSchedule initGuard [t, t, !t, !t]).pcA ||
      proceeded (runSchedule initGuard [t, t, !t, !t]).pcB) = true := by
  cases t <;> exact ⟨rfl, rfl⟩

end ETL
